import Mathlib

/-!
Verification of the live data ingestion and alerting subsystem of the
stock-game repository: the alert engine (`workers/alert_manager.py`), the
session/reconnect manager and quote cache (`workers/shioaji_worker.py`),
and the scheduled fetch jobs (`workers/institutional_worker.py`,
`workers/ai_analyzer.py`).

The Python code is shallowly embedded: SQLite rows become Lean structures,
the alert table becomes a list of records, prices become rationals,
exceptions become `Except`/`Option` values, and the external Shioaji API
becomes an oracle record of functions.
-/

namespace StockGame

/-! ## Alert engine — `workers/alert_manager.py`

A row of the `stock_alerts` table (schema in `database/db.py`):
`id INTEGER PRIMARY KEY AUTOINCREMENT, stock_id, stock_name, alert_type,
target_price, is_triggered INTEGER DEFAULT 0, triggered_at TIMESTAMP,
created_at`.  `created_at` is used only for ordering of result lists and
is omitted; timestamps are abstracted as naturals. -/

structure Alert where
  id : Nat
  stock_id : String
  stock_name : String
  alert_type : String
  target_price : ℚ
  is_triggered : Bool
  triggered_at : Option Nat
  deriving Repr, DecidableEq

/-- A quote dict `{price, ...}`: a field-name → value map.  An absent
`price` key models `quote.get("price", 0)` returning the default. -/
abbrev Quote := List (String × ℚ)

/-- The `quotes` argument of `check_alerts`: `{stock_id: {price, ...}}`. -/
abbrev QuoteMap := List (String × Quote)

/-- `SELECT * FROM stock_alerts WHERE is_triggered = 0` (order abstracted:
the model returns rows in store order). -/
def get_active_alerts (store : List Alert) : List Alert :=
  store.filter (fun a => !a.is_triggered)

/-- `quote.get("price", 0)`. -/
def quotePrice (q : Quote) : ℚ := (q.lookup "price").getD 0

/-- The per-alert evaluation in the body of `check_alerts`:
`quotes.get(stock_id)` missing or falsy (empty) skips; a non-positive
`current_price` skips; otherwise `above` fires when price ≥ target and
`below` fires when price ≤ target. -/
def alertFires (quotes : QuoteMap) (a : Alert) : Bool :=
  match quotes.lookup a.stock_id with
  | none => false
  | some q =>
    if q.isEmpty then false
    else
      let current_price := quotePrice q
      if current_price ≤ 0 then false
      else if a.alert_type = "above" ∧ a.target_price ≤ current_price then true
      else if a.alert_type = "below" ∧ current_price ≤ a.target_price then true
      else false

/-- The `alert_msg` dict pushed into `newly_triggered` (the formatted
message string and wall-clock trigger time are omitted). -/
structure TriggerEvent where
  id : Nat
  stock_id : String
  stock_name : String
  alert_type : String
  target_price : ℚ
  current_price : ℚ
  deriving Repr, DecidableEq

def mkTriggerEvent (quotes : QuoteMap) (a : Alert) : TriggerEvent :=
  { id := a.id
    stock_id := a.stock_id
    stock_name := a.stock_name
    alert_type := a.alert_type
    target_price := a.target_price
    current_price := quotePrice ((quotes.lookup a.stock_id).getD []) }

/-- The effect of the `SET` clause of the marking write on one row:
`is_triggered = 1, triggered_at = CURRENT_TIMESTAMP`. -/
def markRec (now : Nat) (r : Alert) : Alert :=
  { r with is_triggered := true, triggered_at := some now }

/-- The marking write issued for a fired alert:
`UPDATE stock_alerts SET is_triggered = 1, triggered_at = CURRENT_TIMESTAMP
WHERE id = ?`.  Note the `WHERE` clause matches on `id` alone. -/
def markTriggered (now : Nat) (alert_id : Nat) (store : List Alert) : List Alert :=
  store.map (fun r => if r.id = alert_id then markRec now r else r)

/-- `AlertManager.check_alerts(quotes)`: fetch the active alerts once, then
loop over them, firing and marking as in the source; returns the
`newly_triggered` list together with the updated store. -/
def check_alerts (now : Nat) (quotes : QuoteMap) (store : List Alert) :
    List TriggerEvent × List Alert :=
  (get_active_alerts store).foldl
    (fun acc a =>
      if alertFires quotes a then
        (acc.1 ++ [mkTriggerEvent quotes a], markTriggered now a.id acc.2)
      else acc)
    ([], store)

/-- A sequence of `check_alerts` calls, each with its own timestamp and
quote map, threading the store; returns the per-call event lists. -/
def runChecks : List (Nat × QuoteMap) → List Alert → List (List TriggerEvent) × List Alert
  | [], store => ([], store)
  | c :: rest, store =>
    let r := check_alerts c.1 c.2 store
    let rr := runChecks rest r.2
    (r.1 :: rr.1, rr.2)

/-- Number of events in a list carrying a given alert id. -/
def countId (i : Nat) (es : List TriggerEvent) : Nat :=
  (es.filter (fun e => e.id == i)).length

/-- The alerts that fire during one `check_alerts` call: the active rows
whose condition holds against the supplied quote map. -/
def firedAlerts (quotes : QuoteMap) (store : List Alert) : List Alert :=
  (get_active_alerts store).filter (alertFires quotes)

/-- All rows carrying a given id are already marked triggered. -/
def IdDone (i : Nat) (store : List Alert) : Prop :=
  ∀ a ∈ store, a.id = i → a.is_triggered = true

lemma markRec_id (now : Nat) (r : Alert) : (markRec now r).id = r.id := rfl

lemma markRec_markRec (now : Nat) (r : Alert) :
    markRec now (markRec now r) = markRec now r := rfl

lemma check_alerts_foldl (now : Nat) (q : QuoteMap) (l : List Alert)
    (es0 : List TriggerEvent) (st0 : List Alert) :
    l.foldl
      (fun acc a =>
        if alertFires q a then
          (acc.1 ++ [mkTriggerEvent q a], markTriggered now a.id acc.2)
        else acc)
      (es0, st0)
    = (es0 ++ (l.filter (alertFires q)).map (mkTriggerEvent q),
       (l.filter (alertFires q)).foldl (fun st a => markTriggered now a.id st) st0) := by
  induction l generalizing es0 st0 with
  | nil => simp
  | cons a l ih =>
    by_cases h : alertFires q a
    · simp [List.foldl_cons, h, ih]
    · simp [List.foldl_cons, h, ih]

lemma foldl_mark_eq_map (now : Nat) (fired : List Alert) (s : List Alert) :
    fired.foldl (fun st a => markTriggered now a.id st) s
      = s.map (fun r => if fired.any (fun a => a.id == r.id) then markRec now r else r) := by
  induction fired generalizing s with
  | nil => simp
  | cons a fs ih =>
    rw [List.foldl_cons, ih, markTriggered, List.map_map]
    refine List.map_congr_left (fun r _hr => ?_)
    by_cases h : r.id = a.id
    · simp only [Function.comp, h, if_pos rfl, List.any_cons]
      by_cases h2 : fs.any (fun b => b.id == a.id)
      · simp [markRec, h2, h]
      · simp [markRec, h2, h]
    · simp only [Function.comp, if_neg h, List.any_cons]
      have : (a.id == r.id) = false := by
        simp [Ne.symm h]
      simp [this]

lemma check_alerts_eq (now : Nat) (q : QuoteMap) (store : List Alert) :
    check_alerts now q store =
      ((firedAlerts q store).map (mkTriggerEvent q),
       store.map (fun r =>
         if (firedAlerts q store).any (fun a => a.id == r.id) then markRec now r else r)) := by
  rw [check_alerts, check_alerts_foldl, foldl_mark_eq_map]
  simp [firedAlerts]

lemma mem_firedAlerts {q : QuoteMap} {store : List Alert} {a : Alert}
    (h : a ∈ firedAlerts q store) :
    a ∈ store ∧ a.is_triggered = false ∧ alertFires q a = true := by
  rw [firedAlerts, List.mem_filter] at h
  obtain ⟨h1, h2⟩ := h
  rw [get_active_alerts, List.mem_filter] at h1
  exact ⟨h1.1, by simpa using h1.2, h2⟩

lemma mem_events {now : Nat} {q : QuoteMap} {store : List Alert} {e : TriggerEvent}
    (h : e ∈ (check_alerts now q store).1) :
    ∃ a ∈ store, a.is_triggered = false ∧ a.id = e.id := by
  rw [check_alerts_eq] at h
  simp only [List.mem_map] at h
  obtain ⟨a, ha, rfl⟩ := h
  obtain ⟨h1, h2, _⟩ := mem_firedAlerts ha
  exact ⟨a, h1, h2, rfl⟩

lemma mem_post {now : Nat} {q : QuoteMap} {store : List Alert} {a' : Alert}
    (h : a' ∈ (check_alerts now q store).2) :
    ∃ r ∈ store,
      a' = if (firedAlerts q store).any (fun a => a.id == r.id) then markRec now r else r := by
  rw [check_alerts_eq] at h
  simp only [List.mem_map] at h
  obtain ⟨r, hr, rfl⟩ := h
  exact ⟨r, hr, rfl⟩

lemma ids_post (now : Nat) (q : QuoteMap) (store : List Alert) :
    ((check_alerts now q store).2).map Alert.id = store.map Alert.id := by
  rw [check_alerts_eq]
  simp only [List.map_map]
  refine List.map_congr_left (fun r _hr => ?_)
  by_cases h : (firedAlerts q store).any (fun a => a.id == r.id) <;>
    simp [Function.comp, h, markRec_id]

lemma countId_map_mk (q : QuoteMap) (i : Nat) (l : List Alert) :
    countId i (l.map (mkTriggerEvent q)) = (l.filter (fun a => a.id == i)).length := by
  induction l with
  | nil => rfl
  | cons a l ih =>
    by_cases h : a.id = i
    · simp only [List.map_cons, countId, List.filter_cons] at *
      simp only [mkTriggerEvent] at *
      simp [h, ih]
    · simp only [List.map_cons, countId, List.filter_cons] at *
      simp only [mkTriggerEvent] at *
      simp [h, ih]

lemma length_filter_le_one_of_nodup {l : List Alert} {i : Nat}
    (h : (l.map Alert.id).Nodup) :
    (l.filter (fun a => a.id == i)).length ≤ 1 := by
  induction l with
  | nil => simp
  | cons a l ih =>
    simp only [List.map_cons, List.nodup_cons] at h
    by_cases hid : a.id = i
    · have hz : l.filter (fun a => a.id == i) = [] := by
        refine List.filter_eq_nil_iff.2 (fun b hb => ?_)
        intro hbi
        have hbi' : b.id = i := by simpa using hbi
        exact h.1 (by
          rw [List.mem_map]
          exact ⟨b, hb, by rw [hbi', hid]⟩)
      simp [List.filter_cons, hid, hz]
    · simp only [List.filter_cons]
      have : (a.id == i) = false := by simp [hid]
      simp only [this, Bool.false_eq_true, if_false]
      exact ih h.2

lemma firedAlerts_ids_sublist (q : QuoteMap) (store : List Alert) :
    ((firedAlerts q store).map Alert.id).Sublist (store.map Alert.id) :=
  List.Sublist.map Alert.id
    ((List.filter_sublist (get_active_alerts store)).trans (List.filter_sublist store))

lemma countId_call_le_one {now : Nat} {q : QuoteMap} {store : List Alert} {i : Nat}
    (h : (store.map Alert.id).Nodup) :
    countId i (check_alerts now q store).1 ≤ 1 := by
  rw [check_alerts_eq]
  simp only [countId_map_mk]
  exact length_filter_le_one_of_nodup (h.sublist (firedAlerts_ids_sublist q store))

lemma countId_eq_zero {i : Nat} {es : List TriggerEvent} :
    countId i es = 0 ↔ ∀ e ∈ es, e.id ≠ i := by
  rw [countId, List.length_eq_zero, List.filter_eq_nil_iff]
  constructor
  · intro h e he
    have := h e he
    simpa using this
  · intro h e he
    simpa using h e he

lemma countId_zero_of_done {now : Nat} {q : QuoteMap} {store : List Alert} {i : Nat}
    (h : IdDone i store) :
    countId i (check_alerts now q store).1 = 0 := by
  rw [countId_eq_zero]
  intro e he hei
  obtain ⟨a, ha, hflag, hid⟩ := mem_events he
  have := h a ha (hid.trans hei)
  rw [this] at hflag
  exact Bool.noConfusion hflag

lemma done_post_of_done {now : Nat} {q : QuoteMap} {store : List Alert} {i : Nat}
    (h : IdDone i store) :
    IdDone i (check_alerts now q store).2 := by
  intro a' ha' hid
  obtain ⟨r, hr, heq⟩ := mem_post ha'
  by_cases hc : (firedAlerts q store).any (fun a => a.id == r.id)
  · rw [if_pos hc] at heq
    rw [heq]
    rfl
  · rw [if_neg hc] at heq
    rw [heq] at hid ⊢
    exact h r hr hid

lemma done_post_of_fired {now : Nat} {q : QuoteMap} {store : List Alert} {i : Nat}
    (h : countId i (check_alerts now q store).1 ≠ 0) :
    IdDone i (check_alerts now q store).2 := by
  have hex : ∃ a ∈ firedAlerts q store, a.id = i := by
    by_contra hno
    push_neg at hno
    apply h
    rw [countId_eq_zero]
    intro e he
    rw [check_alerts_eq] at he
    simp only [List.mem_map] at he
    obtain ⟨a, ha, rfl⟩ := he
    exact hno a ha
  obtain ⟨a, ha, hai⟩ := hex
  intro a' ha' hid
  obtain ⟨r, _hr, heq⟩ := mem_post ha'
  have hrid : r.id = i := by
    by_cases hc : (firedAlerts q store).any (fun b => b.id == r.id)
    · rw [if_pos hc] at heq
      rw [heq] at hid
      exact hid
    · rw [if_neg hc] at heq
      rw [heq] at hid
      exact hid
  have hc : (firedAlerts q store).any (fun b => b.id == r.id) = true := by
    rw [List.any_eq_true]
    exact ⟨a, ha, by simp [hai, hrid]⟩
  rw [if_pos hc] at heq
  rw [heq]
  rfl

lemma countId_append (i : Nat) (xs ys : List TriggerEvent) :
    countId i (xs ++ ys) = countId i xs + countId i ys := by
  simp [countId, List.filter_append]

lemma runChecks_count (i : Nat) :
    ∀ (calls : List (Nat × QuoteMap)) (store : List Alert),
      (store.map Alert.id).Nodup →
      countId i (runChecks calls store).1.flatten ≤ 1 ∧
        (IdDone i store → countId i (runChecks calls store).1.flatten = 0) := by
  intro calls
  induction calls with
  | nil =>
    intro store _h
    exact ⟨by simp [runChecks, countId], fun _ => by simp [runChecks, countId]⟩
  | cons c rest ih =>
    intro store h
    have hpost : (((check_alerts c.1 c.2 store).2).map Alert.id).Nodup := by
      rw [ids_post]; exact h
    obtain ⟨ih1, ih2⟩ := ih (check_alerts c.1 c.2 store).2 hpost
    have hjoin : (runChecks (c :: rest) store).1.flatten
        = (check_alerts c.1 c.2 store).1 ++
            (runChecks rest (check_alerts c.1 c.2 store).2).1.flatten := by
      simp [runChecks]
    constructor
    · rw [hjoin, countId_append]
      by_cases hz : countId i (check_alerts c.1 c.2 store).1 = 0
      · rw [hz]; simpa using ih1
      · have h1 : countId i (check_alerts c.1 c.2 store).1 ≤ 1 := countId_call_le_one h
        have h2 : countId i (runChecks rest (check_alerts c.1 c.2 store).2).1.flatten = 0 :=
          ih2 (done_post_of_fired hz)
        omega
    · intro hdone
      rw [hjoin, countId_append, countId_zero_of_done hdone,
        ih2 (done_post_of_done hdone)]

/-! Concrete scenario of C1: alert `above 1000` on symbol `S`, price
readings 995, 1001, 1002, 999, 1003 over five successive calls. -/

def demoAlert : Alert :=
  { id := 1, stock_id := "S", stock_name := "SName", alert_type := "above",
    target_price := 1000, is_triggered := false, triggered_at := none }

def demoStore : List Alert := [demoAlert]

def demoQuote (p : ℚ) : QuoteMap := [("S", [("price", p)])]

def demoCalls : List (Nat × QuoteMap) :=
  [(1, demoQuote 995), (2, demoQuote 1001), (3, demoQuote 1002),
   (4, demoQuote 999), (5, demoQuote 1003)]

def demoEvent : TriggerEvent :=
  { id := 1, stock_id := "S", stock_name := "SName", alert_type := "above",
    target_price := 1000, current_price := 1001 }

/-- C1: over any sequence of `check_alerts` calls, each alert (alert ids
are unique: `id` is the table's primary key) produces at most one trigger
event in total; in particular the `above 1000` alert on `S` with readings
995, 1001, 1002, 999, 1003 fires exactly once, at the 1001 reading, and
all subsequent calls return nothing for it. -/
theorem alert_triggers_at_most_once :
    (∀ (calls : List (Nat × QuoteMap)) (store : List Alert) (i : Nat),
        (store.map Alert.id).Nodup →
        countId i (runChecks calls store).1.flatten ≤ 1) ∧
    (runChecks demoCalls demoStore).1 = [[], [demoEvent], [], [], []] := by
  refine ⟨fun calls store i h => (runChecks_count i calls store h).1, ?_⟩
  decide

theorem alert_triggers_at_most_once_witness :
    (demoStore.map Alert.id).Nodup ∧
      countId 1 (runChecks demoCalls demoStore).1.flatten ≤ 1 :=
  ⟨by decide, alert_triggers_at_most_once.1 demoCalls demoStore 1 (by decide)⟩

/-- A concrete already-triggered row (`is_triggered = 1`,
`triggered_at = 5`). -/
def triggeredAlert : Alert :=
  { id := 7, stock_id := "T", stock_name := "TName", alert_type := "above",
    target_price := 100, is_triggered := true, triggered_at := some 5 }

/-- C5 counterexample: the marking write is not condition-checked on
`is_triggered = 0` — applied to an already-triggered row it does change
the stored record (it overwrites `triggered_at` with the new
timestamp). -/
theorem marking_write_changes_triggered_row :
    markTriggered 9 7 [triggeredAlert] ≠ [triggeredAlert] := by decide

/-- C5 amended: the marking write matches on `id` alone and
unconditionally sets `is_triggered = 1` and overwrites `triggered_at`,
even on a row that is already triggered; no re-fire results from that,
but only because `get_active_alerts` excludes `is_triggered = 1` rows:
every trigger event comes from a row whose stored flag was still 0. -/
theorem marking_write_matches_id_only :
    (∀ (now i : Nat) (store : List Alert) (a : Alert),
        a ∈ store → a.id = i → a.is_triggered = true →
        { a with triggered_at := some now } ∈ markTriggered now i store) ∧
    (∀ (now : Nat) (q : QuoteMap) (store : List Alert) (e : TriggerEvent),
        e ∈ (check_alerts now q store).1 →
        ∃ a ∈ store, a.id = e.id ∧ a.is_triggered = false) := by
  constructor
  · intro now i store a ha hid htrig
    have heq : ({ a with triggered_at := some now } : Alert)
        = if a.id = i then markRec now a else a := by
      rw [if_pos hid]
      cases a with
      | mk id sid sn ty tp flag ta => simp_all [markRec]
    rw [markTriggered, heq]
    exact List.mem_map_of_mem _ ha
  · intro now q store e he
    obtain ⟨a, ha, hflag, hid⟩ := mem_events he
    exact ⟨a, ha, hid, hflag⟩

theorem marking_write_matches_id_only_witness :
    ({ triggeredAlert with triggered_at := some 9 } ∈ markTriggered 9 7 [triggeredAlert]) ∧
      ∃ a ∈ demoStore, a.id = demoEvent.id ∧ a.is_triggered = false :=
  ⟨marking_write_matches_id_only.1 9 7 [triggeredAlert] triggeredAlert (by decide) (by decide)
      (by decide),
    marking_write_matches_id_only.2 2 (demoQuote 1001) demoStore demoEvent (by decide)⟩

/-- C9: a quote whose `price` field is absent or non-positive never
triggers an alert on that symbol — the alert stays active — even for a
`below` alert whose comparison would arithmetically hold. -/
theorem nonpositive_price_never_triggers :
    ∀ (now : Nat) (quotes : QuoteMap) (store : List Alert) (a : Alert) (q : Quote),
      (store.map Alert.id).Nodup →
      a ∈ store → a.is_triggered = false →
      quotes.lookup a.stock_id = some q →
      (q.lookup "price" = none ∨ quotePrice q ≤ 0) →
      countId a.id (check_alerts now quotes store).1 = 0 ∧
        a ∈ (check_alerts now quotes store).2 := by
  intro now quotes store a q hnodup ha _hflag hq hp
  have hple : quotePrice q ≤ 0 := by
    rcases hp with hnone | hle
    · rw [quotePrice, hnone]
      simp
    · exact hle
  have hfire : alertFires quotes a = false := by
    rw [alertFires, hq]
    by_cases he : q.isEmpty
    · simp [he]
    · simp only [he, if_false, Bool.false_eq_true]
      rw [if_pos hple]
  have hnotfired : ∀ b ∈ firedAlerts quotes store, b.id ≠ a.id := by
    intro b hb hbid
    obtain ⟨hbst, _hbflag, hbfire⟩ := mem_firedAlerts hb
    have hba : b = a := List.inj_on_of_nodup_map hnodup hbst ha hbid
    rw [hba, hfire] at hbfire
    exact Bool.noConfusion hbfire
  constructor
  · rw [countId_eq_zero]
    intro e he
    rw [check_alerts_eq] at he
    simp only [List.mem_map] at he
    obtain ⟨b, hb, rfl⟩ := he
    exact hnotfired b hb
  · rw [check_alerts_eq]
    have hcond : (firedAlerts quotes store).any (fun b => b.id == a.id) = false := by
      rw [Bool.eq_false_iff]
      intro hany
      rw [List.any_eq_true] at hany
      obtain ⟨b, hb, hbid⟩ := hany
      exact hnotfired b hb (by simpa using hbid)
    have : a = if (firedAlerts quotes store).any (fun b => b.id == a.id)
        then markRec now a else a := by
      rw [hcond]
      simp
    rw [this]
    exact List.mem_map_of_mem _ ha

/-- A `below 10` alert whose comparison would hold at a negative price. -/
def belowAlert : Alert :=
  { id := 2, stock_id := "S", stock_name := "N", alert_type := "below",
    target_price := 10, is_triggered := false, triggered_at := none }

/-- The quote map carrying a negative price for `S`. -/
def negQuotes : QuoteMap := [("S", [("price", (-5 : ℚ))])]

theorem nonpositive_price_never_triggers_witness :
    countId 2 (check_alerts 0 negQuotes [belowAlert]).1 = 0 ∧
      belowAlert ∈ (check_alerts 0 negQuotes [belowAlert]).2 :=
  nonpositive_price_never_triggers 0 negQuotes [belowAlert] belowAlert
    [("price", (-5 : ℚ))] (by decide) (by decide) (by decide) (by decide)
    (by right; decide)

/-! ## Session manager — `workers/shioaji_worker.py`

Connection state of `ShioajiWorker`: `is_connected`, whether `self.api`
holds an object, and `_retry_count`.  The external login handshake is
abstracted by a boolean oracle (`login_ok` = the `try` block of
`connect` does not raise). -/

structure WorkerConn where
  is_connected : Bool
  api : Bool
  retry_count : Nat
  deriving Repr, DecidableEq

/-- `self._retry_delays`. -/
def retry_delays : List Nat := [5, 10, 15, 30, 60, 60, 120, 120, 300, 300]

/-- `self._max_retry`. -/
def max_retry : Nat := 10

/-- `ShioajiWorker.connect()`: early `return True` when already
connected; otherwise assign `self.api`, attempt login; success sets
`is_connected` and resets `_retry_count` to 0, failure clears
`is_connected`. -/
def connect (login_ok : Bool) (s : WorkerConn) : Bool × WorkerConn :=
  if s.is_connected then (true, s)
  else
    let s1 : WorkerConn := { s with api := true }
    if login_ok then (true, { s1 with is_connected := true, retry_count := 0 })
    else (false, { s1 with is_connected := false })

/-- `ShioajiWorker.disconnect()`: clears `is_connected` (the logout call
and subscription clearing have no effect on the modelled fields). -/
def disconnect (s : WorkerConn) : WorkerConn := { s with is_connected := false }

/-- Observable outcome of one `reconnect()` call: its return value, the
delays it slept (in order), and whether it called `connect()`. -/
structure ReconnectResult where
  ok : Bool
  sleeps : List Nat
  connect_called : Bool
  state : WorkerConn
  deriving Repr, DecidableEq

/-- `ShioajiWorker.reconnect()`: disconnect, compute the clamped delay,
increment `_retry_count`; beyond `_max_retry` return `False` without
sleeping or connecting, otherwise sleep the delay and call
`connect()`. -/
def reconnect (login_ok : Bool) (s : WorkerConn) : ReconnectResult :=
  let s1 := disconnect s
  let delay_idx := min s1.retry_count (retry_delays.length - 1)
  let delay := retry_delays.getD delay_idx 0
  let s2 : WorkerConn := { s1 with retry_count := s1.retry_count + 1 }
  if s2.retry_count > max_retry then
    { ok := false, sleeps := [], connect_called := false, state := s2 }
  else
    let c := connect login_ok s2
    { ok := c.1, sleeps := [delay], connect_called := true, state := c.2 }

/-- The sleep trace of `n` consecutive `reconnect()` calls whose
`connect()` attempts all fail. -/
def reconnectFailTrace : Nat → WorkerConn → List (List Nat) × WorkerConn
  | 0, s => ([], s)
  | n + 1, s =>
    let r := reconnect false s
    let rest := reconnectFailTrace n r.state
    (r.sleeps :: rest.1, rest.2)

/-- Connection states reachable from the initial `ShioajiWorker` state
through any interleaving of `connect`, `disconnect` and `reconnect`. -/
inductive ReachableConn : WorkerConn → Prop
  | init : ReachableConn { is_connected := false, api := false, retry_count := 0 }
  | conn (ok : Bool) {s : WorkerConn} : ReachableConn s → ReachableConn (connect ok s).2
  | disc {s : WorkerConn} : ReachableConn s → ReachableConn (disconnect s)
  | reconn (ok : Bool) {s : WorkerConn} : ReachableConn s →
      ReachableConn (reconnect ok s).state

lemma reachable_connected_zero : ∀ {s : WorkerConn}, ReachableConn s →
    s.is_connected = true → s.retry_count = 0 := by
  intro s h
  induction h with
  | init => intro hc; exact Bool.noConfusion hc
  | @conn ok s' _hs ih =>
    rw [connect]
    by_cases hc : s'.is_connected
    · simpa [hc] using ih
    · by_cases hl : ok <;> simp [hc, hl]
  | @disc s' _hs _ih =>
    intro hc
    exact Bool.noConfusion hc
  | @reconn ok s' _hs _ih =>
    rw [reconnect]
    split
    · intro hc; exact Bool.noConfusion hc
    · rw [connect]
      by_cases hc : (disconnect s').is_connected
      · exact absurd hc (by simp [disconnect])
      · by_cases hl : ok <;> simp [disconnect, hc, hl]

/-- C2: starting from retry counter 0, ten consecutive failing
`reconnect()` calls sleep exactly 5, 10, 15, 30, 60, 60, 120, 120, 300,
300 seconds in that order; once the counter has reached `_max_retry`,
every further `reconnect()` call returns failure without sleeping and
without calling `connect()`; and any `connect()` call that succeeds from
a reachable worker state leaves the retry counter at 0. -/
theorem reconnect_backoff_contract :
    (∀ s : WorkerConn, s.retry_count = 0 →
        (reconnectFailTrace 10 s).1 =
          [[5], [10], [15], [30], [60], [60], [120], [120], [300], [300]]) ∧
    (∀ (login_ok : Bool) (s : WorkerConn), max_retry ≤ s.retry_count →
        (reconnect login_ok s).ok = false ∧ (reconnect login_ok s).sleeps = [] ∧
          (reconnect login_ok s).connect_called = false) ∧
    (∀ (login_ok : Bool) (s : WorkerConn), ReachableConn s →
        (connect login_ok s).1 = true → (connect login_ok s).2.retry_count = 0) := by
  refine ⟨?_, ?_, ?_⟩
  · intro s h
    obtain ⟨c, a, n⟩ := s
    simp only at h
    subst h
    cases c <;> cases a <;> decide
  · intro ok s h
    rw [reconnect]
    split
    · exact ⟨rfl, rfl, rfl⟩
    · next hcond =>
      exfalso
      apply hcond
      simp only [disconnect, max_retry] at *
      omega
  · intro ok s hreach hok
    rw [connect] at hok ⊢
    by_cases hc : s.is_connected
    · simp only [hc, if_pos rfl]
      exact reachable_connected_zero hreach hc
    · by_cases hl : ok
      · simp [hc, hl]
      · simp [hc, hl] at hok

theorem reconnect_backoff_contract_witness :
    (reconnectFailTrace 10 ⟨false, false, 0⟩).1 =
        [[5], [10], [15], [30], [60], [60], [120], [120], [300], [300]] ∧
      ((reconnect true ⟨false, true, 10⟩).ok = false ∧
        (reconnect true ⟨false, true, 10⟩).sleeps = [] ∧
        (reconnect true ⟨false, true, 10⟩).connect_called = false) ∧
      (connect true ⟨false, false, 0⟩).2.retry_count = 0 :=
  ⟨reconnect_backoff_contract.1 ⟨false, false, 0⟩ rfl,
    reconnect_backoff_contract.2.1 true ⟨false, true, 10⟩ (by decide),
    reconnect_backoff_contract.2.2 true ⟨false, false, 0⟩ ReachableConn.init (by decide)⟩

/-! ## Trading-session gate — `ShioajiWorker.is_trading_time`
and `config.TRADING_SESSIONS` -/

/-- `config.TRADING_SESSIONS`: name, start `"HH:MM"`, end `"HH:MM"`. -/
def TRADING_SESSIONS : List (String × String × String) :=
  [("pre_market", "08:30", "09:00"),
   ("market", "09:00", "13:30"),
   ("after_hours", "13:40", "14:30")]

/-- `start_str.split(":")` at character level. -/
def splitColon (cs : List Char) : List (List Char) :=
  match cs with
  | [] => [[]]
  | c :: rest =>
    let r := splitColon rest
    if c = ':' then [] :: r
    else (c :: r.headI) :: r.tail

/-- Python `int` on a decimal digit string. -/
def digitsToNat (cs : List Char) : Nat :=
  cs.foldl (fun n c => n * 10 + (c.toNat - 48)) 0

/-- `h1, m1 = map(int, start_str.split(":"))` followed by
`dt_time(h1, m1)`, as a time of day in microseconds (the granularity of
Python `datetime.time` comparisons). -/
def hmToMicro (s : String) : Nat :=
  match splitColon s.data with
  | [h, m] => (digitsToNat h * 3600 + digitsToNat m * 60) * 1000000
  | _ => 0

/-- `ShioajiWorker.is_trading_time()`, with `now` the current time of
day in microseconds.  The source compares
`dt_time(h1, m1) <= now <= dt_time(h2, m2)` — both bounds inclusive. -/
def is_trading_time (now : Nat) : Bool :=
  TRADING_SESSIONS.any
    (fun s => decide (hmToMicro s.2.1 ≤ now ∧ now ≤ hmToMicro s.2.2))

/-- Modelled from the spec's words (for comparison only): the gate the
spec describes, with half-open `[start, end)` windows. -/
def is_trading_time_halfopen_spec (now : Nat) : Bool :=
  TRADING_SESSIONS.any
    (fun s => decide (hmToMicro s.2.1 ≤ now ∧ now < hmToMicro s.2.2))

/-- C4 counterexample: at exactly 14:30:00 — the end of the
`after_hours` window, inside no other window — the code reports trading
time, while the claimed half-open `[start, end)` gate would not. -/
theorem trading_time_end_is_inside :
    is_trading_time 52200000000 = true ∧
      is_trading_time_halfopen_spec 52200000000 = false := by decide

/-- C4 amended: `is_trading_time` treats every configured window as a
closed interval: it returns true exactly when start ≤ t ≤ end for some
window, so a time equal to a window's end is inside it. -/
theorem trading_time_closed_interval :
    ∀ now : Nat, is_trading_time now = true ↔
      ∃ w ∈ TRADING_SESSIONS, hmToMicro w.2.1 ≤ now ∧ now ≤ hmToMicro w.2.2 := by
  intro now
  simp [is_trading_time, List.any_eq_true]

/-! ## Snapshot fetching — `ShioajiWorker.fetch_snapshots`

The external Shioaji API is an oracle: `contracts` models
`self.api.Contracts.Stocks[sid]` (which may raise, or return a falsy
contract), `snapshots` models the batch `self.api.snapshots(contracts)`
call (which may raise). -/

structure Contract where
  name : String
  deriving Repr, DecidableEq

/-- The fields of one Shioaji snapshot object that `fetch_snapshots`
reads; `Option` encodes attributes read through `hasattr`/`getattr`
defaults or compared against `None`. -/
structure Snap where
  close : ℚ
  change_price : Option ℚ
  change_rate : Option ℚ
  volume : Option ℚ
  total_volume : ℚ
  total_amount : Option ℚ
  average_price : Option ℚ
  high : ℚ
  low : ℚ
  open_price : ℚ
  buy_price : Option ℚ
  sell_price : Option ℚ
  deriving Repr, DecidableEq

/-- Python `round(x, 2)`: round half to even at two decimal places. -/
def round2 (x : ℚ) : ℚ :=
  let y := x * 100
  let n : ℤ :=
    if y - ⌊y⌋ = 1 / 2 then (if ⌊y⌋ % 2 = 0 then ⌊y⌋ else ⌊y⌋ + 1)
    else ⌊y + 1 / 2⌋
  (n : ℚ) / 100

/-- The per-symbol `data` dict assembled inside `fetch_snapshots`. -/
structure QuoteData where
  stock_id : String
  stock_name : String
  price : ℚ
  change_price : ℚ
  change_percent : ℚ
  volume : ℚ
  total_volume : ℚ
  amount : ℚ
  high : ℚ
  low : ℚ
  open_ : ℚ
  close : ℚ
  buy_price : ℚ
  sell_price : ℚ
  vwap : ℚ
  update_time : String
  deriving Repr, DecidableEq

def mkQuoteData (now_str : String) (sid : String) (c : Contract) (snap : Snap) :
    QuoteData :=
  let price := snap.close
  let volume := snap.total_volume
  let total_amount := snap.total_amount.getD 0
  let avg_price := snap.average_price.getD 0
  let vwap :=
    if 0 < avg_price then avg_price
    else if 0 < volume ∧ 0 < total_amount then total_amount / volume
    else price
  { stock_id := sid
    stock_name := c.name
    price := price
    change_price := snap.change_price.getD 0
    change_percent := snap.change_rate.getD 0
    volume := snap.volume.getD 0
    total_volume := volume
    amount := total_amount
    high := snap.high
    low := snap.low
    open_ := snap.open_price
    close := price
    buy_price := snap.buy_price.getD 0
    sell_price := snap.sell_price.getD 0
    vwap := round2 vwap
    update_time := now_str }

structure ShioajiApi where
  contracts : String → Except Unit (Option Contract)
  snapshots : List Contract → Except Unit (List Snap)

/-- The per-symbol resolution loop of `fetch_snapshots`: a raising or
falsy contract lookup is skipped (`except Exception: continue` /
`if contract:`); the rest of the batch is kept, in input order. -/
def resolveContracts (api : ShioajiApi) : List String → List Contract × List String
  | [] => ([], [])
  | sid :: rest =>
    match api.contracts sid with
    | .error _ => resolveContracts api rest
    | .ok none => resolveContracts api rest
    | .ok (some c) =>
      let r := resolveContracts api rest
      (c :: r.1, sid :: r.2)

/-- `ShioajiWorker.fetch_snapshots(stock_ids)`: empty map when
disconnected or without an api object, when no contract resolves, or
when the batch snapshot call raises (the outer `except` also covers an
index mismatch between the returned snapshot list and `valid_ids`);
otherwise the symbol → data map for the resolved symbols. -/
def fetch_snapshots (api : ShioajiApi) (conn : WorkerConn) (now_str : String)
    (stock_ids : List String) : List (String × QuoteData) :=
  if !conn.is_connected || !conn.api then []
  else if (resolveContracts api stock_ids).1.isEmpty then []
  else
    match api.snapshots (resolveContracts api stock_ids).1 with
    | .error _ => []
    | .ok snaps =>
      if (resolveContracts api stock_ids).2.length < snaps.length then []
      else
        (snaps.zip ((resolveContracts api stock_ids).2.zip
            (resolveContracts api stock_ids).1)).map
          (fun p => (p.2.1, mkQuoteData now_str p.2.1 p.2.2 p.1))

lemma resolve_valid_sub (api : ShioajiApi) :
    ∀ (ids : List String) (sid : String),
      sid ∈ (resolveContracts api ids).2 → sid ∈ ids := by
  intro ids
  induction ids with
  | nil => intro sid h; exact absurd h (by simp [resolveContracts])
  | cons a l ih =>
    intro sid h
    rw [resolveContracts] at h
    cases hc : api.contracts a with
    | error e =>
      rw [hc] at h
      exact List.mem_cons_of_mem a (ih sid h)
    | ok oc =>
      cases oc with
      | none =>
        rw [hc] at h
        exact List.mem_cons_of_mem a (ih sid h)
      | some c =>
        rw [hc] at h
        simp only [List.mem_cons] at h
        rcases h with h | h
        · exact h ▸ List.mem_cons_self a l
        · exact List.mem_cons_of_mem a (ih sid h)

lemma resolve_skip (api : ShioajiApi) (sid : String)
    (hsid : api.contracts sid = .error () ∨ api.contracts sid = .ok none) :
    ∀ (ids1 ids2 : List String),
      resolveContracts api (ids1 ++ sid :: ids2) = resolveContracts api (ids1 ++ ids2) := by
  intro ids1 ids2
  induction ids1 with
  | nil =>
    simp only [List.nil_append]
    rw [resolveContracts]
    rcases hsid with h | h <;> rw [h]
  | cons a l ih =>
    simp only [List.cons_append]
    rw [resolveContracts, resolveContracts]
    cases hc : api.contracts a with
    | error e => exact ih
    | ok oc => cases oc with
      | none => exact ih
      | some c => rw [ih]

/-- C6: `fetch_snapshots` returns a partial map whose keys are a subset
of the requested symbols; being disconnected (or having no api object)
yields the empty map; a raising batch snapshot call yields the empty
map; and a symbol whose individual contract resolution raises or is
falsy is silently dropped without affecting the rest of the batch. -/
theorem fetch_snapshots_partial_map :
    (∀ (api : ShioajiApi) (conn : WorkerConn) (now_str : String) (ids : List String)
        (sid : String),
        sid ∈ (fetch_snapshots api conn now_str ids).map Prod.fst → sid ∈ ids) ∧
    (∀ (api : ShioajiApi) (conn : WorkerConn) (now_str : String) (ids : List String),
        conn.is_connected = false ∨ conn.api = false →
        fetch_snapshots api conn now_str ids = []) ∧
    (∀ (api : ShioajiApi) (conn : WorkerConn) (now_str : String) (ids : List String),
        (∀ cs, api.snapshots cs = .error ()) →
        fetch_snapshots api conn now_str ids = []) ∧
    (∀ (api : ShioajiApi) (conn : WorkerConn) (now_str : String)
        (ids1 ids2 : List String) (sid : String),
        api.contracts sid = .error () ∨ api.contracts sid = .ok none →
        fetch_snapshots api conn now_str (ids1 ++ sid :: ids2)
          = fetch_snapshots api conn now_str (ids1 ++ ids2)) := by
  refine ⟨?_, ?_, ?_, ?_⟩
  · intro api conn now_str ids sid h
    rw [fetch_snapshots] at h
    split at h
    · exact absurd h (by simp)
    · split at h
      · exact absurd h (by simp)
      · split at h
        · exact absurd h (by simp)
        · next snaps _heq =>
          split at h
          · exact absurd h (by simp)
          · simp only [List.map_map, List.mem_map, Function.comp] at h
            obtain ⟨p, hp, rfl⟩ := h
            have hmem := (List.of_mem_zip hp).2
            exact resolve_valid_sub api ids p.2.1 (List.of_mem_zip hmem).1
  · intro api conn now_str ids h
    rw [fetch_snapshots]
    rcases h with h | h <;> rw [h] <;> simp
  · intro api conn now_str ids h
    rw [fetch_snapshots]
    split
    · rfl
    · split
      · rfl
      · rw [h]
  · intro api conn now_str ids1 ids2 sid h
    rw [fetch_snapshots, fetch_snapshots, resolve_skip api sid h ids1 ids2]

/-- A concrete snapshot object for witnesses. -/
def demoSnap : Snap :=
  { close := 600, change_price := some 5, change_rate := some 1,
    volume := some 10, total_volume := 1000, total_amount := some 600000,
    average_price := some 599, high := 610, low := 590, open_price := 595,
    buy_price := some 599, sell_price := some 601 }

/-- A concrete api oracle: only `"2330"` resolves; batches succeed. -/
def demoApi : ShioajiApi :=
  { contracts := fun sid => if sid = "2330" then .ok (some ⟨"TSMC"⟩) else .error ()
    snapshots := fun cs => .ok (cs.map (fun _ => demoSnap)) }

/-- An api oracle whose batch snapshot call always raises. -/
def failApi : ShioajiApi :=
  { contracts := fun _ => .ok (some ⟨"X"⟩)
    snapshots := fun _ => .error () }

theorem fetch_snapshots_partial_map_witness :
    ("2330" ∈ (["9999", "2330"] : List String)) ∧
      fetch_snapshots demoApi ⟨false, true, 0⟩ "09:00:00" ["2330"] = [] ∧
      fetch_snapshots failApi ⟨true, true, 0⟩ "09:00:00" ["2330"] = [] ∧
      fetch_snapshots demoApi ⟨true, true, 0⟩ "09:00:00" ["9999", "2330"]
        = fetch_snapshots demoApi ⟨true, true, 0⟩ "09:00:00" ["2330"] :=
  ⟨fetch_snapshots_partial_map.1 demoApi ⟨true, true, 0⟩ "09:00:00" ["9999", "2330"]
      "2330" (by decide),
    fetch_snapshots_partial_map.2.1 demoApi ⟨false, true, 0⟩ "09:00:00" ["2330"]
      (Or.inl rfl),
    fetch_snapshots_partial_map.2.2.1 failApi ⟨true, true, 0⟩ "09:00:00" ["2330"]
      (fun _ => rfl),
    fetch_snapshots_partial_map.2.2.2 demoApi ⟨true, true, 0⟩ "09:00:00" [] ["2330"]
      "9999" (Or.inl rfl)⟩

/-! ## Quote cache — `ShioajiWorker.get_cache` / `get_stock_cache`

Python dict values are heap objects shared by reference, so the cache is
modelled with an explicit heap: `cache` maps a symbol to the address of
its snapshot dict, and a caller mutating a snapshot it holds a reference
to is a heap write at that address. -/

structure CacheHeap where
  heap : List (Nat × QuoteData)
  cache : List (String × Nat)
  deriving Repr, DecidableEq

/-- `get_cache()`: `dict(self.cache)` — a fresh top-level dict holding
the same symbol → snapshot-object references (a shallow copy). -/
def get_cache (st : CacheHeap) : List (String × Nat) := st.cache

/-- `get_stock_cache(stock_id)`: `self.cache.get(stock_id)` — the cached
snapshot object itself, by reference, with no copy. -/
def get_stock_cache (st : CacheHeap) (stock_id : String) : Option Nat :=
  st.cache.lookup stock_id

/-- A caller mutating, in place, a snapshot dict whose reference it
holds. -/
def writeSnap (st : CacheHeap) (addr : Nat) (d : QuoteData) : CacheHeap :=
  { st with heap := st.heap.map (fun p => if p.1 = addr then (addr, d) else p) }

/-- Dereference a snapshot object. -/
def readSnap (st : CacheHeap) (addr : Nat) : Option QuoteData :=
  st.heap.lookup addr

/-- A concrete cached snapshot for symbol `2330` at price 500. -/
def snapA : QuoteData :=
  { stock_id := "2330", stock_name := "TSMC", price := 500, change_price := 0,
    change_percent := 0, volume := 0, total_volume := 0, amount := 0,
    high := 0, low := 0, open_ := 0, close := 500, buy_price := 0,
    sell_price := 0, vwap := 500, update_time := "09:00:00" }

/-- `snapA` after a caller overwrote its price field. -/
def snapB : QuoteData := { snapA with price := 1 }

/-- A worker state caching `snapA` for `2330` at address 0. -/
def demoCache : CacheHeap := { heap := [(0, snapA)], cache := [("2330", 0)] }

/-- C8 counterexample: `get_stock_cache` hands out the cached snapshot
dict itself — mutating it through the returned reference changes what a
later `get_stock_cache` (or `get_cache` dereference) returns: before the
write the cached value of `2330` reads as `snapA`, after it as
`snapB`. -/
theorem cache_read_returns_live_reference :
    get_stock_cache demoCache "2330" = some 0 ∧
      readSnap demoCache 0 = some snapA ∧
      get_stock_cache (writeSnap demoCache 0 snapB) "2330" = some 0 ∧
      readSnap (writeSnap demoCache 0 snapB) 0 = some snapB ∧
      snapA ≠ snapB := by decide

lemma lookup_writeSnap {heap : List (Nat × QuoteData)} {addr : Nat} (d : QuoteData)
    (h : (heap.lookup addr).isSome) :
    (heap.map (fun p => if p.1 = addr then (addr, d) else p)).lookup addr = some d := by
  induction heap with
  | nil => simp [List.lookup] at h
  | cons p l ih =>
    obtain ⟨k, v⟩ := p
    by_cases hp : k = addr
    · subst hp
      simp only [List.map_cons, if_pos trivial]
      simp [List.lookup]
    · have hne : (addr == k) = false := by simp [Ne.symm hp]
      simp only [List.lookup, hne] at h
      simp only [List.map_cons]
      have hif : (if (k, v).1 = addr then (addr, d) else (k, v)) = (k, v) := if_neg hp
      rw [hif]
      simp only [List.lookup, hne]
      exact ih h

/-- C8 amended: `get_cache` copies only the top-level mapping — the
returned table is a fresh value still referencing the shared snapshot
objects (its entries coincide with `get_stock_cache`'s) — and
`get_stock_cache` returns the shared object itself: a heap write through
a returned reference is visible to every later read, while the worker's
symbol → object table is untouched by it. -/
theorem cache_reads_share_snapshots :
    (∀ (st : CacheHeap) (sym : String),
        (get_cache st).lookup sym = get_stock_cache st sym) ∧
    (∀ (st : CacheHeap) (sym : String) (addr : Nat) (d : QuoteData),
        get_stock_cache st sym = some addr →
        (readSnap st addr).isSome →
        get_stock_cache (writeSnap st addr d) sym = some addr ∧
          get_cache (writeSnap st addr d) = get_cache st ∧
          readSnap (writeSnap st addr d) addr = some d) := by
  constructor
  · intro st sym
    rfl
  · intro st sym addr d hlook hsome
    refine ⟨hlook, rfl, ?_⟩
    exact lookup_writeSnap d hsome

theorem cache_reads_share_snapshots_witness :
    (get_cache demoCache).lookup "2330" = get_stock_cache demoCache "2330" ∧
      (get_stock_cache (writeSnap demoCache 0 snapB) "2330" = some 0 ∧
        get_cache (writeSnap demoCache 0 snapB) = get_cache demoCache ∧
        readSnap (writeSnap demoCache 0 snapB) 0 = some snapB) :=
  ⟨cache_reads_share_snapshots.1 demoCache "2330",
    cache_reads_share_snapshots.2 demoCache "2330" 0 snapB (by decide) (by decide)⟩

/-! ## Scheduled jobs — `workers/institutional_worker.py` and
`workers/ai_analyzer.py`

The job bodies are blocking network/AI calls; each body's outcome is
abstracted as an `Except String Unit` (an exception with its message, or
normal return).  Each entry point returns whether the job body was
invoked, together with the worker's new state. -/

structure InstState where
  last_fetch_date : Option String
  last_fetch_status : String
  deriving Repr, DecidableEq

/-- `InstitutionalWorker.scheduled_fetch()`: weekend guard
(`today.weekday() >= 5`), same-day guard
(`last_fetch_date == today.isoformat()`), then status `fetching`, the
two fetch calls, and `success`/`error: <msg>` with the last-run date
updated only on success. -/
def scheduled_fetch (weekday : Nat) (today : String) (body : Except String Unit)
    (s : InstState) : Bool × InstState :=
  if 5 ≤ weekday then (false, s)
  else if s.last_fetch_date = some today then (false, s)
  else
    match body with
    | .ok _ =>
      (true, { s with last_fetch_date := some today, last_fetch_status := "success" })
    | .error e =>
      (true, { s with last_fetch_status := "error: " ++ e })

/-- `InstitutionalWorker.manual_fetch()`: no weekend or last-run guard;
sets `fetching` then `success`/`error: <msg>`; never touches
`last_fetch_date`. -/
def manual_fetch (body : Except String Unit) (s : InstState) : Bool × InstState :=
  match body with
  | .ok _ => (true, { s with last_fetch_status := "success" })
  | .error e => (true, { s with last_fetch_status := "error: " ++ e })

structure AIState where
  last_review_date : Option String
  deriving Repr, DecidableEq

/-- `AIAnalyzer.scheduled_daily_review()`: weekend and same-day guards,
then `generate_daily_review()` (whose last statement before returning
sets `last_review_date`) inside a `try` whose `except` only logs — the
analyzer records no status field at all. -/
def scheduled_daily_review (weekday : Nat) (today : String) (body : Except String Unit)
    (s : AIState) : Bool × AIState :=
  if 5 ≤ weekday then (false, s)
  else if s.last_review_date = some today then (false, s)
  else
    match body with
    | .ok _ => (true, { s with last_review_date := some today })
    | .error _ => (true, s)

/-- C3: a scheduled firing whose last-run date already equals today is a
no-op — the body does not run and the state (last-run date and status)
is unchanged — while `manual_fetch` runs the body unconditionally,
whatever the last-run date. -/
theorem scheduled_guard_vs_manual :
    (∀ (weekday : Nat) (today : String) (body : Except String Unit) (s : InstState),
        s.last_fetch_date = some today →
        scheduled_fetch weekday today body s = (false, s)) ∧
    (∀ (body : Except String Unit) (s : InstState), (manual_fetch body s).1 = true) := by
  constructor
  · intro wd today body s h
    rw [scheduled_fetch.eq_def]
    by_cases hw : 5 ≤ wd
    · rw [if_pos hw]
    · rw [if_neg hw, if_pos h]
  · intro body s
    cases body <;> rfl

theorem scheduled_guard_vs_manual_witness :
    scheduled_fetch 2 "2026-10-14" (.ok ())
        { last_fetch_date := some "2026-10-14", last_fetch_status := "success" }
      = (false, { last_fetch_date := some "2026-10-14", last_fetch_status := "success" }) ∧
      (manual_fetch (.ok ())
        { last_fetch_date := some "2026-10-14", last_fetch_status := "success" }).1 = true :=
  ⟨scheduled_guard_vs_manual.1 2 "2026-10-14" (.ok ())
      { last_fetch_date := some "2026-10-14", last_fetch_status := "success" } (by decide),
    scheduled_guard_vs_manual.2 (.ok ())
      { last_fetch_date := some "2026-10-14", last_fetch_status := "success" }⟩

/-- C10: on Saturday (weekday 5) or Sunday (6), a scheduled firing of
the institutional fetch or of the AI daily review returns immediately —
no body run, no state change — while the manual institutional path runs
the body regardless (it takes no weekday into account at all). -/
theorem weekend_scheduled_noop :
    (∀ (weekday : Nat) (today : String) (body : Except String Unit) (s : InstState),
        5 ≤ weekday → scheduled_fetch weekday today body s = (false, s)) ∧
    (∀ (weekday : Nat) (today : String) (body : Except String Unit) (s : AIState),
        5 ≤ weekday → scheduled_daily_review weekday today body s = (false, s)) ∧
    (∀ (body : Except String Unit) (s : InstState), (manual_fetch body s).1 = true) := by
  refine ⟨?_, ?_, ?_⟩
  · intro wd today body s h
    rw [scheduled_fetch.eq_def, if_pos h]
  · intro wd today body s h
    rw [scheduled_daily_review.eq_def, if_pos h]
  · intro body s
    cases body <;> rfl

theorem weekend_scheduled_noop_witness :
    scheduled_fetch 6 "2026-10-18" (.error "boom")
        { last_fetch_date := none, last_fetch_status := "idle" }
      = (false, { last_fetch_date := none, last_fetch_status := "idle" }) ∧
      scheduled_daily_review 5 "2026-10-17" (.ok ()) { last_review_date := none }
        = (false, { last_review_date := none }) ∧
      (manual_fetch (.error "boom")
        { last_fetch_date := none, last_fetch_status := "idle" }).1 = true :=
  ⟨weekend_scheduled_noop.1 6 "2026-10-18" (.error "boom")
      { last_fetch_date := none, last_fetch_status := "idle" } (by decide),
    weekend_scheduled_noop.2.1 5 "2026-10-17" (.ok ()) { last_review_date := none }
      (by decide),
    weekend_scheduled_noop.2.2 (.error "boom")
      { last_fetch_date := none, last_fetch_status := "idle" }⟩

/-- C7 counterexample: a weekday scheduled firing of the AI daily review
whose body raises runs the body but leaves the analyzer's state exactly
as before — no `error: <message>` status is recorded anywhere, because
the analyzer has no status field and its `except` block only logs. -/
theorem ai_review_failure_records_nothing :
    scheduled_daily_review 2 "2026-10-14" (.error "boom") { last_review_date := none }
      = (true, { last_review_date := none }) := by decide

/-- C7 amended: neither scheduled entry point propagates its body's
exception.  The institutional job records `status = "error: <msg>"` with
the last-run date untouched on failure, and `status = "success"` with
last-run date = today on success; the AI review job records no status —
a failing run leaves its state unchanged — and on success its last-run
date is set to today (inside the job body). -/
theorem scheduled_job_boundaries :
    (∀ (weekday : Nat) (today e : String) (s : InstState),
        weekday < 5 → s.last_fetch_date ≠ some today →
        scheduled_fetch weekday today (.error e) s
          = (true, { s with last_fetch_status := "error: " ++ e })) ∧
    (∀ (weekday : Nat) (today : String) (s : InstState),
        weekday < 5 → s.last_fetch_date ≠ some today →
        scheduled_fetch weekday today (.ok ()) s
          = (true, { last_fetch_date := some today, last_fetch_status := "success" })) ∧
    (∀ (weekday : Nat) (today e : String) (s : AIState),
        (scheduled_daily_review weekday today (.error e) s).2 = s) ∧
    (∀ (weekday : Nat) (today : String) (s : AIState),
        weekday < 5 → s.last_review_date ≠ some today →
        scheduled_daily_review weekday today (.ok ()) s
          = (true, { last_review_date := some today })) := by
  refine ⟨?_, ?_, ?_, ?_⟩
  · intro wd today e s hw hd
    rw [scheduled_fetch.eq_def, if_neg (by omega), if_neg hd]
  · intro wd today s hw hd
    rw [scheduled_fetch.eq_def, if_neg (by omega), if_neg hd]
  · intro wd today e s
    rw [scheduled_daily_review.eq_def]
    by_cases hw : 5 ≤ wd
    · rw [if_pos hw]
    · rw [if_neg hw]
      by_cases hd : s.last_review_date = some today
      · rw [if_pos hd]
      · rw [if_neg hd]
  · intro wd today s hw hd
    rw [scheduled_daily_review.eq_def, if_neg (by omega), if_neg hd]

theorem scheduled_job_boundaries_witness :
    scheduled_fetch 1 "2026-10-13" (.error "boom")
        { last_fetch_date := none, last_fetch_status := "idle" }
      = (true, { last_fetch_date := none, last_fetch_status := "error: boom" }) ∧
      scheduled_fetch 1 "2026-10-13" (.ok ())
          { last_fetch_date := none, last_fetch_status := "idle" }
        = (true, { last_fetch_date := some "2026-10-13", last_fetch_status := "success" }) ∧
      (scheduled_daily_review 1 "2026-10-13" (.error "boom")
          { last_review_date := none }).2 = { last_review_date := none } ∧
      scheduled_daily_review 1 "2026-10-13" (.ok ()) { last_review_date := none }
        = (true, { last_review_date := some "2026-10-13" }) :=
  ⟨scheduled_job_boundaries.1 1 "2026-10-13" "boom"
      { last_fetch_date := none, last_fetch_status := "idle" } (by decide) (by decide),
    scheduled_job_boundaries.2.1 1 "2026-10-13"
      { last_fetch_date := none, last_fetch_status := "idle" } (by decide) (by decide),
    scheduled_job_boundaries.2.2.1 1 "2026-10-13" "boom" { last_review_date := none },
    scheduled_job_boundaries.2.2.2 1 "2026-10-13" { last_review_date := none }
      (by decide) (by decide)⟩

end StockGame
